import Mathlib

/-!
Shallow embedding of the ci-queue admission script
(src/.github/actions/ci-queue/ci-queue.py) and proofs about its claims.

The script serializes CI workflow runs through a DynamoDB table: each entrant
registers a record keyed by its workflow run id, polls the table, and proceeds
once its record is the live record with the smallest enqueued_at string.
The DynamoDB store itself is external to the repository; its operations
(conditional put, filtered scan, unconditional update, delete) are modelled
from the spec's external-interface section, while every piece of control flow
is transcribed from the Python source.
-/

namespace CiQueue

/-- One DynamoDB queue record, as built at ci-queue.py lines 102-106:
workflow_run_id (string key), enqueued_at (ISO-8601 string used as sort key),
ttl (epoch seconds, the expiry). -/
structure Item where
  workflow_run_id : String
  enqueued_at : String
  ttl : Int
deriving DecidableEq, Repr

/-- POLL_INTERVAL = timedelta(minutes=1); the script uses .seconds = 60. -/
def POLL_INTERVAL_SECONDS : Int := 60

/-- MAX_QUEUE_DUR = timedelta(hours=5, minutes=30); .seconds = 19800. -/
def MAX_QUEUE_DUR_SECONDS : Int := 19800

/-- RUNNING_TTL = timedelta(hours=8) = 28800 seconds. -/
def RUNNING_TTL_SECONDS : Int := 28800

/-- WAITING_TTL = timedelta(minutes=10) = 600 seconds. -/
def WAITING_TTL_SECONDS : Int := 600

/-- Python truthiness of the optional github_repo argument: None and the
empty string are falsy (lines 69 and 131 guard with plain if github_repo). -/
def pyTruthy : Option String → Bool
  | none => false
  | some s => !(s == "")

/-- Modelled from the spec: the store-side effect of the scan request issued at
lines 146-156 with FilterExpression ttl > :now_timestamp. The store returns
exactly the physically present records whose ttl is strictly greater than the
current timestamp, in scan order. -/
def scanLive (table : List Item) (now : Int) : List Item :=
  table.filter (fun r => decide (now < r.ttl))

/-- The comparison the poll loop sorts with: the (reflexive, total)
lexicographic order on the enqueued_at string's character sequence, exactly
how Python compares strings (code point by code point). -/
def enqLE (a b : Item) : Bool := decide (a.enqueued_at.data ≤ b.enqueued_at.data)

/-- Strict lexicographic comparison on the sort key's character sequence. -/
def enqLT (a b : Item) : Bool := decide (a.enqueued_at.data < b.enqueued_at.data)

/-- Stable insertion into a list sorted by enqueued_at: the new record goes
before the first record whose key is not strictly smaller, so records with
equal keys keep their original relative order. -/
def insertStable (a : Item) : List Item → List Item
  | [] => [a]
  | b :: t => if enqLT b a then b :: insertStable a t else a :: b :: t

/-- Line 165: all_workflows.sort(key=lambda x: x['enqueued_at']['S']).
Python list.sort is a stable sort by the enqueued_at string. Its output is
uniquely determined by that contract - sorted by key, equal keys in original
relative order - and is computed here by a stable insertion sort. -/
def ciSort (l : List Item) : List Item := l.foldr insertStable []

/-- Modelled from the spec: conditional-insert outcomes of the put_item call at
lines 108-112 with ConditionExpression attribute_not_exists(workflow_run_id). -/
inductive PutOutcome where
  | success
  | conditionalCheckFailed
  | otherClientError
deriving DecidableEq, Repr

/-- Modelled from the spec: the store-side behaviour of the conditional put.
A transport fault yields a generic ClientError and leaves the table unchanged;
otherwise the insert fails with ConditionalCheckFailedException exactly when a
record with the same workflow_run_id is present, and appends the record when
absent. -/
def put_item_conditional (table : List Item) (item : Item) (transportFault : Bool) :
    List Item × PutOutcome :=
  if transportFault then (table, PutOutcome.otherClientError)
  else if table.any (fun r => r.workflow_run_id == item.workflow_run_id) then
    (table, PutOutcome.conditionalCheckFailed)
  else (table ++ [item], PutOutcome.success)

/-- Outcome of the registration block, lines 101-121 of enqueue_and_wait. -/
inductive RegisterOutcome where
  | proceed
  | exitFailure
deriving DecidableEq, Repr

/-- Lines 101-121: the registration try/except. ConditionalCheckFailedException
is caught and ignored (proceed); any other ClientError reaches sys.exit(1). -/
def registerStep (table : List Item) (item : Item) (transportFault : Bool) :
    List Item × RegisterOutcome :=
  match put_item_conditional table item transportFault with
  | (t, PutOutcome.success) => (t, RegisterOutcome.proceed)
  | (t, PutOutcome.conditionalCheckFailed) => (t, RegisterOutcome.proceed)
  | (t, PutOutcome.otherClientError) => (t, RegisterOutcome.exitFailure)

/-- Result of restart_workflow (lines 64-88): requested records whether a
rerun API request was actually issued (the subprocess ran; true also when the
request returned an error status), returnValue is the function's boolean
result. -/
structure RestartOutcome where
  requested : Bool
  returnValue : Bool
deriving DecidableEq, Repr

/-- Lines 64-88. No repo (falsy) => skip, return False. A missing gh CLI
raises FileNotFoundError before any request is issued => return False. A
CalledProcessError means the request was issued but failed => return False.
Otherwise the rerun was issued successfully => return True. -/
def restart_workflow (github_repo : Option String) (ghCliFound rerunApiOk : Bool) :
    RestartOutcome :=
  if pyTruthy github_repo = false then ⟨false, false⟩
  else if ghCliFound = false then ⟨false, false⟩
  else if rerunApiOk then ⟨true, true⟩ else ⟨true, false⟩

/-- Outcome of the scan call at lines 146-156: a ClientError, or the physical
table contents at that instant in scan order (filtering applied in scanLive). -/
inductive ScanResult where
  | clientError
  | ok (tableItems : List Item)
deriving DecidableEq, Repr

/-- Environment of one iteration of the while-True poll loop: the wall clock
read at line 127, the timestamp used in the scan filter (line 145), the scan
outcome (ClientError, or the physical table contents at that instant, in scan
order), and the outcomes of the external calls this iteration might make. -/
structure PollEnv where
  wallClock : Int
  scanTime : Int
  scanResult : ScanResult
  ghCliFound : Bool
  rerunApiOk : Bool
  promoteUpdateOk : Bool
deriving DecidableEq, Repr

/-- Control-flow outcome of a single poll-loop iteration (lines 126-196).
continueLoop's final field records that the unconditional
time.sleep(POLL_INTERVAL.seconds) at line 196 was reached: it sits after the
try/except, outside every branch, so every path that neither returns, exits
nor raises sleeps before the next iteration. -/
inductive StepOut where
  | exitTimeout (rerunRequested : Bool) (restartReturn : Bool)
  | exitEmptyQueue
  | promoted (queue_position : Option Nat)
  | unboundLocal
  | continueLoop (queue_position : Option Nat) (promotionFailed : Bool) (slept : Bool)
deriving DecidableEq, Repr

/-- Lines 158-191, after a successful scan: filter result already applied.
all_workflows is the (non-error) scan result; queue_position is the binding of
the Python local of the same name as of entry into this iteration (none while
never assigned). The for loop at lines 171-174 assigns it only when some item
matches; the print at line 177 then reads it, raising UnboundLocalError if it
was never assigned in this call of enqueue_and_wait. -/
def pollStepScanned (workflow_run_id : String) (queue_position : Option Nat)
    (promoteUpdateOk : Bool) (all_workflows : List Item) : StepOut :=
  if all_workflows.isEmpty then StepOut.exitEmptyQueue
  else
    match ciSort all_workflows with
    | [] => StepOut.exitEmptyQueue  -- unreachable: sorting preserves nonemptiness
    | first_workflow :: restSorted =>
      let sorted := first_workflow :: restSorted
      let first_workflow_id := first_workflow.workflow_run_id
      let queue_position' :=
        match sorted.findIdx? (fun it => it.workflow_run_id == workflow_run_id) with
        | some idx => some (idx + 1)
        | none => queue_position
      match queue_position' with
      | none => StepOut.unboundLocal
      | some _ =>
        if first_workflow_id == workflow_run_id then
          if promoteUpdateOk then StepOut.promoted queue_position'
          else StepOut.continueLoop queue_position' true true
        else StepOut.continueLoop queue_position' false true

/-- One iteration of the while-True loop, lines 126-196. The elapsed check at
line 129 runs first; on timeout the restart escape hatch fires only under a
truthy github_repo, and sys.exit(1) follows in every case. A ClientError from
the scan is caught at line 193 and the loop sleeps and retries, leaving
queue_position bound as before. -/
def pollStep (workflow_run_id : String) (github_repo : Option String)
    (start_time : Int) (queue_position : Option Nat) (env : PollEnv) : StepOut :=
  let elapsed := env.wallClock - start_time
  if MAX_QUEUE_DUR_SECONDS ≤ elapsed then
    let r :=
      if pyTruthy github_repo then
        restart_workflow github_repo env.ghCliFound env.rerunApiOk
      else ⟨false, false⟩
    StepOut.exitTimeout r.requested r.returnValue
  else
    match env.scanResult with
    | ScanResult.clientError => StepOut.continueLoop queue_position false true
    | ScanResult.ok tableItems =>
        pollStepScanned workflow_run_id queue_position env.promoteUpdateOk
          (scanLive tableItems env.scanTime)

/-- Counters accumulated over a run of the poll loop: rerun API requests
issued and sleeps performed. -/
structure RunStats where
  rerunRequests : Nat
  sleeps : Nat
deriving DecidableEq, Repr

/-- How a run of enqueue_and_wait ends: promoted (the function returns to the
caller), exitFailure (sys.exit(1)), unhandledError (an exception that the
ClientError handler does not catch propagates), or traceExhausted (the
supplied environment trace ran out while still waiting). -/
inductive RunOutcome where
  | promoted (queue_position : Option Nat)
  | exitFailure
  | unhandledError
  | traceExhausted
deriving DecidableEq, Repr

/-- The while-True loop of enqueue_and_wait driven by a trace of per-iteration
environments; queue_position threads the Python local across iterations. -/
def pollLoop (workflow_run_id : String) (github_repo : Option String) (start_time : Int) :
    Option Nat → List PollEnv → RunOutcome × RunStats
  | _, [] => (RunOutcome.traceExhausted, ⟨0, 0⟩)
  | queue_position, env :: rest =>
    match pollStep workflow_run_id github_repo start_time queue_position env with
    | StepOut.exitTimeout requested _ =>
        (RunOutcome.exitFailure, ⟨if requested then 1 else 0, 0⟩)
    | StepOut.exitEmptyQueue => (RunOutcome.exitFailure, ⟨0, 0⟩)
    | StepOut.promoted p => (RunOutcome.promoted p, ⟨0, 0⟩)
    | StepOut.unboundLocal => (RunOutcome.unhandledError, ⟨0, 0⟩)
    | StepOut.continueLoop qp _ _ =>
        let r := pollLoop workflow_run_id github_repo start_time qp rest
        (r.1, ⟨r.2.rerunRequests, r.2.sleeps + 1⟩)

/-- enqueue_and_wait, lines 91-196: registration (lines 97-121) followed by
the poll loop with the Python local queue_position initially unassigned. The
trace supplies each iteration's view of the concurrently mutated store. -/
def enqueue_and_wait (table : List Item) (workflow_run_id : String)
    (github_repo : Option String) (now : Int) (enqueuedAt : String)
    (registerFault : Bool) (start_time : Int) (trace : List PollEnv) :
    RunOutcome × RunStats :=
  let item : Item := ⟨workflow_run_id, enqueuedAt, now + WAITING_TTL_SECONDS⟩
  match registerStep table item registerFault with
  | (_, RegisterOutcome.exitFailure) => (RunOutcome.exitFailure, ⟨0, 0⟩)
  | (_, RegisterOutcome.proceed) =>
      pollLoop workflow_run_id github_repo start_time none trace

/-- Modelled from the spec: the store-side effect of the unconditional
update_item with UpdateExpression SET #ttl = :new_ttl keyed on
workflow_run_id, as issued by refresh_ttl (lines 207-217) and start_running
(lines 232-242): every record whose key matches gets the new ttl, every other
record is untouched. -/
def update_ttl (table : List Item) (key : String) (newTtl : Int) : List Item :=
  table.map (fun r =>
    if r.workflow_run_id == key then { r with ttl := newTtl } else r)

/-- Store effect of refresh_ttl (lines 199-220): waiting-horizon lease. -/
def refresh_ttl_table (table : List Item) (workflow_run_id : String) (now : Int) : List Item :=
  update_ttl table workflow_run_id (now + WAITING_TTL_SECONDS)

/-- Store effect of start_running (lines 223-246): running-horizon lease. -/
def start_running_table (table : List Item) (workflow_run_id : String) (now : Int) : List Item :=
  update_ttl table workflow_run_id (now + RUNNING_TTL_SECONDS)

/-- Modelled from the spec: store-side effect of delete_item keyed by
workflow_run_id (lines 255-258); deleting an absent key succeeds trivially. -/
def delete_item (table : List Item) (key : String) : List Item :=
  table.filter (fun r => !(r.workflow_run_id == key))

/-- dequeue, lines 249-261: issues the delete; a ClientError is caught and
printed as a warning only. The boolean result records whether the process
exits with failure status - it never does. -/
def dequeue (table : List Item) (workflow_run_id : String) (transportFault : Bool) :
    List Item × Bool :=
  if transportFault then (table, false)
  else (delete_item table workflow_run_id, false)

/-- A promotion attempt is a call of start_running: the step either returned
(promoted) or fell into the promotionFailed retry branch at line 187. -/
def promotionAttempted : StepOut → Bool
  | StepOut.promoted _ => true
  | StepOut.continueLoop _ failed _ => failed
  | _ => false

/-- Whether the iteration reached the time.sleep at line 196. -/
def sleptThisStep : StepOut → Bool
  | StepOut.continueLoop _ _ s => s
  | _ => false

/-- The 1-based queue position of an entrant as computed by one iteration of
the poll loop over a given physical table and scan time. -/
def queuePositionOf (table : List Item) (now : Int) (workflow_run_id : String) : Option Nat :=
  match (ciSort (scanLive table now)).findIdx?
      (fun it => it.workflow_run_id == workflow_run_id) with
  | some idx => some (idx + 1)
  | none => none

/-! ### Sample records used by witnesses and counterexamples -/

/-- A sample record; shares its enqueued_at string with itemB. -/
def itemA : Item := ⟨"A", "2024-01-01T00:00:00+00:00", 100⟩

/-- A sample record with the same enqueued_at as itemA but another id. -/
def itemB : Item := ⟨"B", "2024-01-01T00:00:00+00:00", 100⟩

/-- A sample record with a strictly later enqueued_at. -/
def itemC : Item := ⟨"C", "2024-01-02T00:00:00+00:00", 200⟩

/-! ### Facts about the sort used by the poll loop -/

lemma insertStable_perm (a : Item) (l : List Item) :
    (insertStable a l).Perm (a :: l) := by
  induction l with
  | nil => exact List.Perm.refl _
  | cons b t ih =>
    simp only [insertStable]
    by_cases h : enqLT b a = true
    · rw [if_pos h]
      exact (ih.cons b).trans (List.Perm.swap a b t)
    · rw [if_neg h]

lemma insertStable_sorted {a : Item} {l : List Item}
    (hs : l.Pairwise (fun x y => enqLE x y = true)) :
    (insertStable a l).Pairwise (fun x y => enqLE x y = true) := by
  induction l with
  | nil => simp [insertStable]
  | cons b t ih =>
    rcases List.pairwise_cons.mp hs with ⟨hb, ht⟩
    simp only [insertStable]
    by_cases h : enqLT b a = true
    · rw [if_pos h]
      refine List.pairwise_cons.mpr ⟨?_, ih ht⟩
      intro y hy
      have hy' : y ∈ a :: t := (insertStable_perm a t).mem_iff.mp hy
      rcases List.mem_cons.mp hy' with rfl | hyt
      · simp only [enqLT, decide_eq_true_eq] at h
        simp only [enqLE, decide_eq_true_eq]
        exact le_of_lt h
      · exact hb y hyt
    · rw [if_neg h]
      have hab : a.enqueued_at.data ≤ b.enqueued_at.data := by
        simp only [enqLT, decide_eq_true_eq] at h
        exact le_of_not_lt h
      refine List.pairwise_cons.mpr ⟨?_, List.pairwise_cons.mpr ⟨hb, ht⟩⟩
      intro y hy
      rcases List.mem_cons.mp hy with rfl | hyt
      · simp only [enqLE, decide_eq_true_eq]
        exact hab
      · have hby := hb y hyt
        simp only [enqLE, decide_eq_true_eq] at hby ⊢
        exact le_trans hab hby

lemma ciSort_perm (l : List Item) : (ciSort l).Perm l := by
  induction l with
  | nil => exact List.Perm.refl _
  | cons a t ih =>
    simp only [ciSort, List.foldr_cons] at ih ⊢
    exact (insertStable_perm a _).trans (ih.cons a)

lemma ciSort_sorted (l : List Item) :
    (ciSort l).Pairwise (fun x y => enqLE x y = true) := by
  induction l with
  | nil => simp [ciSort]
  | cons a t ih =>
    simp only [ciSort, List.foldr_cons] at ih ⊢
    exact insertStable_sorted ih

lemma ciSort_ne_nil {l : List Item} (h : l ≠ []) : ciSort l ≠ [] := by
  intro hc
  have hp := ciSort_perm l
  rw [hc] at hp
  exact h hp.nil_eq.symm

lemma ciSort_head_min {l : List Item} {a : Item} {t : List Item}
    (h : ciSort l = a :: t) : ∀ b ∈ l, a.enqueued_at.data ≤ b.enqueued_at.data := by
  intro b hb
  have hp := ciSort_perm l
  rw [h] at hp
  have hb' : b ∈ a :: t := hp.mem_iff.mpr hb
  rcases List.mem_cons.mp hb' with hba | hbt
  · exact hba ▸ le_refl _
  · have hs := ciSort_sorted l
    rw [h] at hs
    have := List.rel_of_pairwise_cons hs hbt
    simpa [enqLE, decide_eq_true_eq] using this

lemma ciSort_head_mem {l : List Item} {a : Item} {t : List Item}
    (h : ciSort l = a :: t) : a ∈ l := by
  have hp := ciSort_perm l
  rw [h] at hp
  exact hp.mem_iff.mp (List.mem_cons_self a t)

/-- Two strings with the same character sequence are equal. -/
lemma str_eq_of_data_eq {a b : String} (h : a.data = b.data) : a = b := by
  cases a
  cases b
  exact congrArg String.mk h

/-- Within a list whose enqueued_at strings are pairwise distinct, records are
determined by their enqueued_at. -/
lemma eq_of_key_eq {l : List Item} (hnd : (l.map Item.enqueued_at).Nodup)
    {a b : Item} (ha : a ∈ l) (hb : b ∈ l) (hk : a.enqueued_at = b.enqueued_at) :
    a = b :=
  List.inj_on_of_nodup_map hnd ha hb hk

/-! ### Claim C3 -/

/-- C3: in every poll iteration only records whose ttl is strictly greater
than the scan timestamp enter the ranked scan result; a record whose expiry is
at or before now is excluded and, even if physically present in the table, has
no influence on the iteration's outcome. -/
theorem C3_scan_excludes_expired (tbl : List Item) (now : Int) :
    (∀ r ∈ scanLive tbl now, now < r.ttl) ∧
    (∀ (xs ys : List Item) (r : Item), r.ttl ≤ now →
        scanLive (xs ++ r :: ys) now = scanLive (xs ++ ys) now) ∧
    (∀ (workflow_run_id : String) (github_repo : Option String) (start_time : Int)
        (queue_position : Option Nat) (env : PollEnv) (xs ys : List Item) (r : Item),
        r.ttl ≤ env.scanTime →
        pollStep workflow_run_id github_repo start_time queue_position
          { env with scanResult := ScanResult.ok (xs ++ r :: ys) } =
        pollStep workflow_run_id github_repo start_time queue_position
          { env with scanResult := ScanResult.ok (xs ++ ys) }) := by
  have hdrop : ∀ (now' : Int) (xs ys : List Item) (r : Item), r.ttl ≤ now' →
      scanLive (xs ++ r :: ys) now' = scanLive (xs ++ ys) now' := by
    intro now' xs ys r hle
    have hfalse : decide (now' < r.ttl) = false := by
      simp only [decide_eq_false_iff_not, not_lt]
      exact hle
    simp [scanLive, List.filter_append, List.filter_cons, hfalse]
  refine ⟨?_, hdrop now, ?_⟩
  · intro r hr
    have := List.of_mem_filter hr
    simpa [decide_eq_true_eq] using this
  · intro wfId gh st qp env xs ys r hle
    simp only [pollStep]
    rw [hdrop env.scanTime xs ys r hle]

/-- C3 witness: the second conjunct applied to a concrete expired record. -/
theorem C3_scan_excludes_expired_witness :
    scanLive ([] ++ ⟨"X", "x", 0⟩ :: [itemA]) 5 = scanLive ([] ++ [itemA]) 5 :=
  (C3_scan_excludes_expired [] 5).2.1 [] [itemA] ⟨"X", "x", 0⟩ (by decide)

/-! ### Claim C5 -/

/-- C5: during registration a ConditionalCheckFailedException (key already
present) is swallowed - the wait proceeds and the table, hence the queue
position of the entrant, is unchanged; any other ClientError during the put
makes the whole operation exit with failure. -/
theorem C5_duplicate_registration (tbl : List Item) (item : Item) (now : Int)
    (hdup : item.workflow_run_id ∈ tbl.map Item.workflow_run_id) :
    registerStep tbl item false = (tbl, RegisterOutcome.proceed) ∧
    queuePositionOf (registerStep tbl item false).1 now item.workflow_run_id =
      queuePositionOf tbl now item.workflow_run_id ∧
    (∀ t2 : List Item, registerStep t2 item true = (t2, RegisterOutcome.exitFailure)) := by
  have hany : tbl.any (fun r => r.workflow_run_id == item.workflow_run_id) = true := by
    rcases List.mem_map.mp hdup with ⟨r, hr, hid⟩
    exact List.any_eq_true.mpr ⟨r, hr, by simp [hid]⟩
  have h1 : registerStep tbl item false = (tbl, RegisterOutcome.proceed) := by
    simp [registerStep, put_item_conditional, hany]
  refine ⟨h1, by rw [h1], ?_⟩
  intro t2
  simp [registerStep, put_item_conditional]

/-- C5 witness: re-registering an id already in the table proceeds with the
table unchanged, and a transport fault aborts. -/
theorem C5_duplicate_registration_witness :
    registerStep [itemA] itemA false = ([itemA], RegisterOutcome.proceed) :=
  (C5_duplicate_registration [itemA] itemA 0 (by simp)).1

/-! ### Claim C6 -/

/-- C6: a successful scan that yields zero live records makes the iteration
exit the process with failure (lines 160-162), with no retry: the loop result
is exitFailure with no further sleeps, whatever the rest of the trace. -/
theorem C6_empty_scan_fatal (wfId : String) (gh : Option String) (st : Int)
    (qp : Option Nat) (env : PollEnv) (tbl : List Item) (rest : List PollEnv)
    (hel : env.wallClock - st < MAX_QUEUE_DUR_SECONDS)
    (hscan : env.scanResult = ScanResult.ok tbl)
    (hempty : scanLive tbl env.scanTime = []) :
    pollStep wfId gh st qp env = StepOut.exitEmptyQueue ∧
    pollLoop wfId gh st qp (env :: rest) = (RunOutcome.exitFailure, ⟨0, 0⟩) := by
  have hstep : pollStep wfId gh st qp env = StepOut.exitEmptyQueue := by
    simp only [pollStep, hscan]
    rw [if_neg (by omega)]
    simp [pollStepScanned, hempty]
  exact ⟨hstep, by simp [pollLoop, hstep]⟩

/-- C6 witness: a live-but-foreign-free table whose records are all expired at
scan time drives the step into the fatal empty-queue exit. -/
theorem C6_empty_scan_fatal_witness :
    pollStep "A" none 0 none ⟨0, 100, ScanResult.ok [⟨"X", "x", 50⟩], true, true, true⟩ =
      StepOut.exitEmptyQueue ∧
    pollLoop "A" none 0 none [⟨0, 100, ScanResult.ok [⟨"X", "x", 50⟩], true, true, true⟩] =
      (RunOutcome.exitFailure, ⟨0, 0⟩) :=
  C6_empty_scan_fatal "A" none 0 none ⟨0, 100, ScanResult.ok [⟨"X", "x", 50⟩], true, true, true⟩
    [⟨"X", "x", 50⟩] [] (by decide) rfl (by decide)

/-! ### Claim C7 -/

/-- C7: dequeue deletes by key unconditionally and is idempotent - deleting an
absent key is not an error and a repeated dequeue succeeds as well - and a
store failure during the delete never escalates to a failure exit. -/
theorem C7_dequeue_idempotent (tbl : List Item) (workflow_run_id : String)
    (transportFault : Bool) :
    (delete_item tbl workflow_run_id).all
        (fun r => !(r.workflow_run_id == workflow_run_id)) = true ∧
    delete_item (delete_item tbl workflow_run_id) workflow_run_id =
      delete_item tbl workflow_run_id ∧
    (dequeue tbl workflow_run_id transportFault).2 = false ∧
    (dequeue (dequeue tbl workflow_run_id false).1 workflow_run_id false).2 = false ∧
    (dequeue (dequeue tbl workflow_run_id false).1 workflow_run_id false).1 =
      (dequeue tbl workflow_run_id false).1 := by
  have hidem : delete_item (delete_item tbl workflow_run_id) workflow_run_id =
      delete_item tbl workflow_run_id := by
    simp [delete_item, List.filter_filter]
  refine ⟨?_, hidem, ?_, ?_, ?_⟩
  · rw [List.all_eq_true]
    intro r hr
    simp only [delete_item] at hr
    simpa using (List.mem_filter.mp hr).2
  · cases transportFault <;> simp [dequeue]
  · simp [dequeue]
  · simp [dequeue, hidem]

/-! ### Claim C9 -/

/-- C9: after registration no operation rewrites enqueued_at or the entrant
id, and no operation touches another entrant's record: the store effects of
refresh_ttl and start_running preserve the (workflow_run_id, enqueued_at)
sequence of the whole table and leave every record with a different key
untouched, and dequeue's delete removes only records with the caller's key. -/
theorem C9_own_record_frame (tbl : List Item) (workflow_run_id : String) (now : Int) :
    ((refresh_ttl_table tbl workflow_run_id now).map
        (fun r => (r.workflow_run_id, r.enqueued_at)) =
      tbl.map (fun r => (r.workflow_run_id, r.enqueued_at))) ∧
    ((start_running_table tbl workflow_run_id now).map
        (fun r => (r.workflow_run_id, r.enqueued_at)) =
      tbl.map (fun r => (r.workflow_run_id, r.enqueued_at))) ∧
    ((refresh_ttl_table tbl workflow_run_id now).filter
        (fun r => !(r.workflow_run_id == workflow_run_id)) =
      tbl.filter (fun r => !(r.workflow_run_id == workflow_run_id))) ∧
    ((start_running_table tbl workflow_run_id now).filter
        (fun r => !(r.workflow_run_id == workflow_run_id)) =
      tbl.filter (fun r => !(r.workflow_run_id == workflow_run_id))) ∧
    (∀ r ∈ delete_item tbl workflow_run_id, r ∈ tbl) ∧
    (∀ r ∈ tbl, r.workflow_run_id ≠ workflow_run_id →
      r ∈ delete_item tbl workflow_run_id) := by
  have hmap : ∀ t : Int,
      (update_ttl tbl workflow_run_id t).map
          (fun r => (r.workflow_run_id, r.enqueued_at)) =
        tbl.map (fun r => (r.workflow_run_id, r.enqueued_at)) := by
    intro t
    simp only [update_ttl, List.map_map]
    apply List.map_congr_left
    intro r _
    by_cases h : r.workflow_run_id = workflow_run_id <;> simp [h]
  have hfilter : ∀ (l : List Item) (t : Int),
      (update_ttl l workflow_run_id t).filter
          (fun r => !(r.workflow_run_id == workflow_run_id)) =
        l.filter (fun r => !(r.workflow_run_id == workflow_run_id)) := by
    intro l t
    induction l with
    | nil => rfl
    | cons a l ih =>
      simp only [update_ttl, List.map_cons, List.filter_cons, beq_iff_eq] at ih ⊢
      by_cases h : a.workflow_run_id = workflow_run_id
      · simp [h, ih]
      · simp [h, ih]
  refine ⟨hmap _, hmap _, hfilter _ _, hfilter _ _, ?_, ?_⟩
  · intro r hr
    exact List.mem_of_mem_filter hr
  · intro r hr hne
    exact List.mem_filter.mpr ⟨hr, by simpa using hne⟩

/-- C9 witness: the frame applied to a concrete two-record table. -/
theorem C9_own_record_frame_witness :
    (refresh_ttl_table [itemA, itemC] "A" 0).map
        (fun r => (r.workflow_run_id, r.enqueued_at)) =
      [itemA, itemC].map (fun r => (r.workflow_run_id, r.enqueued_at)) :=
  (C9_own_record_frame [itemA, itemC] "A" 0).1

/-! ### Inversion facts about a poll iteration -/

lemma pollStepScanned_continueLoop_slept {wfId : String} {qp : Option Nat} {ok : Bool}
    {ws : List Item} {p : Option Nat} {f s : Bool}
    (h : pollStepScanned wfId qp ok ws = StepOut.continueLoop p f s) : s = true := by
  simp only [pollStepScanned] at h
  split at h
  · exact absurd h (by simp)
  · split at h
    · exact absurd h (by simp)
    · split at h
      · exact absurd h (by simp)
      · split at h
        · split at h
          · exact absurd h (by simp)
          · injection h with h1 h2 h3
            exact h3.symm
        · injection h with h1 h2 h3
          exact h3.symm

lemma pollStepScanned_promoted_ok {wfId : String} {qp : Option Nat} {ok : Bool}
    {ws : List Item} {p : Option Nat}
    (h : pollStepScanned wfId qp ok ws = StepOut.promoted p) : ok = true := by
  simp only [pollStepScanned] at h
  split at h
  · exact absurd h (by simp)
  · split at h
    · exact absurd h (by simp)
    · split at h
      · exact absurd h (by simp)
      · split at h
        · split at h
          · assumption
          · exact absurd h (by simp)
        · exact absurd h (by simp)

lemma pollStepScanned_failed_not_ok {wfId : String} {qp : Option Nat} {ok : Bool}
    {ws : List Item} {p : Option Nat} {s : Bool}
    (h : pollStepScanned wfId qp ok ws = StepOut.continueLoop p true s) : ok = false := by
  simp only [pollStepScanned] at h
  split at h
  · exact absurd h (by simp)
  · split at h
    · exact absurd h (by simp)
    · split at h
      · exact absurd h (by simp)
      · split at h
        · split at h
          · exact absurd h (by simp)
          · simp_all
        · exact absurd h (by simp)

/-- Off the timeout path and with a successful scan, a poll iteration is the
scanned step applied to the live records. -/
lemma pollStep_reduces (wfId : String) (gh : Option String) (st : Int)
    (qp : Option Nat) (env : PollEnv) (tbl : List Item)
    (hel : env.wallClock - st < MAX_QUEUE_DUR_SECONDS)
    (hscan : env.scanResult = ScanResult.ok tbl) :
    pollStep wfId gh st qp env =
      pollStepScanned wfId qp env.promoteUpdateOk (scanLive tbl env.scanTime) := by
  simp only [pollStep, hscan]
  rw [if_neg (by omega)]

lemma pollStep_continueLoop_slept {wfId : String} {gh : Option String} {st : Int}
    {qp : Option Nat} {env : PollEnv} {p : Option Nat} {f s : Bool}
    (h : pollStep wfId gh st qp env = StepOut.continueLoop p f s) : s = true := by
  simp only [pollStep] at h
  split at h
  · exact absurd h (by simp)
  · split at h
    · injection h with h1 h2 h3
      exact h3.symm
    · exact pollStepScanned_continueLoop_slept h

lemma pollStep_promoted_ok {wfId : String} {gh : Option String} {st : Int}
    {qp : Option Nat} {env : PollEnv} {p : Option Nat}
    (h : pollStep wfId gh st qp env = StepOut.promoted p) :
    env.promoteUpdateOk = true := by
  simp only [pollStep] at h
  split at h
  · exact absurd h (by simp)
  · split at h
    · exact absurd h (by simp)
    · exact pollStepScanned_promoted_ok h

lemma pollStep_failed_not_ok {wfId : String} {gh : Option String} {st : Int}
    {qp : Option Nat} {env : PollEnv} {p : Option Nat} {s : Bool}
    (h : pollStep wfId gh st qp env = StepOut.continueLoop p true s) :
    env.promoteUpdateOk = false := by
  simp only [pollStep] at h
  split at h
  · exact absurd h (by simp)
  · split at h
    · injection h with h1 h2 h3
      exact absurd h2.symm (by simp)
    · exact pollStepScanned_failed_not_ok h

/-! ### Claim C2 -/

/-- Environment in which this entrant is the single live record (hence front)
but the start_running update fails with a ClientError. -/
def envC2 : PollEnv := ⟨0, 0, ScanResult.ok [⟨"A", "t1", 10⟩], true, true, false⟩

/-- C2 counterexample: a failed promotion does NOT retry immediately - the
iteration reaches the unconditional time.sleep at line 196 (slept field true)
before the loop re-scans. -/
theorem C2_counterexample :
    promotionAttempted (pollStep "A" none 0 none envC2) = true ∧
    pollStep "A" none 0 none envC2 = StepOut.continueLoop (some 1) true true ∧
    sleptThisStep (pollStep "A" none 0 none envC2) = true := by decide

/-- C2 as amended: when a promotion attempt fails, the iteration falls through
to the unconditional poll-interval sleep at line 196 - exactly like a
not-our-turn iteration - and only then does the loop re-scan and re-rank. -/
theorem C2_failed_promotion_sleeps (wfId : String) (gh : Option String) (st : Int)
    (qp : Option Nat) (env : PollEnv)
    (hatt : promotionAttempted (pollStep wfId gh st qp env) = true)
    (hfail : env.promoteUpdateOk = false) :
    ∃ p, pollStep wfId gh st qp env = StepOut.continueLoop p true true ∧
      sleptThisStep (pollStep wfId gh st qp env) = true := by
  cases hE : pollStep wfId gh st qp env with
  | exitTimeout a b => rw [hE] at hatt; simp [promotionAttempted] at hatt
  | exitEmptyQueue => rw [hE] at hatt; simp [promotionAttempted] at hatt
  | unboundLocal => rw [hE] at hatt; simp [promotionAttempted] at hatt
  | promoted p =>
      have := pollStep_promoted_ok hE
      rw [hfail] at this
      exact absurd this (by simp)
  | continueLoop p f s =>
      rw [hE] at hatt
      simp only [promotionAttempted] at hatt
      subst hatt
      have hs := pollStep_continueLoop_slept hE
      subst hs
      exact ⟨p, rfl, rfl⟩

/-- C2 witness: the amended statement applied to the counterexample input. -/
theorem C2_failed_promotion_sleeps_witness :
    ∃ p, pollStep "A" none 0 none envC2 = StepOut.continueLoop p true true ∧
      sleptThisStep (pollStep "A" none 0 none envC2) = true :=
  C2_failed_promotion_sleeps "A" none 0 none envC2 (by decide) (by decide)

/-! ### Claim C10 -/

/-- Environment whose scan returns one live record that is not the caller's. -/
def envC10 : PollEnv := ⟨0, 0, ScanResult.ok [⟨"B", "t1", 10⟩], true, true, true⟩

/-- C10 counterexample: the scan returns a non-empty live list with no record
of the caller, yet - because queue_position was assigned in an earlier
iteration (modelled by some 1) - no UnboundLocalError is raised: the iteration
proceeds with the stale position, refreshes and sleeps, and the loop keeps
waiting rather than terminating abnormally. -/
theorem C10_counterexample :
    (∀ r ∈ scanLive [⟨"B", "t1", 10⟩] (0 : Int), r.workflow_run_id ≠ "A") ∧
    scanLive [⟨"B", "t1", 10⟩] (0 : Int) ≠ [] ∧
    pollStep "A" none 0 (some 1) envC10 = StepOut.continueLoop (some 1) false true ∧
    (pollLoop "A" none 0 (some 1) [envC10]).1 = RunOutcome.traceExhausted := by decide

/-- With no matching record in the scan, the sorted list assigns nothing, so
an unassigned queue_position is read at line 177 and the step raises. -/
lemma pollStepScanned_absent_unbound {wfId : String} {ok : Bool} {ws : List Item}
    (hne : ws ≠ []) (habs : ∀ r ∈ ws, r.workflow_run_id ≠ wfId) :
    pollStepScanned wfId none ok ws = StepOut.unboundLocal := by
  simp only [pollStepScanned]
  rw [if_neg (by simpa [List.isEmpty_iff] using hne)]
  cases hcs : ciSort ws with
  | nil => exact absurd hcs (ciSort_ne_nil hne)
  | cons a t =>
      have hfind : (a :: t).findIdx? (fun it => it.workflow_run_id == wfId) = none := by
        rw [List.findIdx?_eq_none_iff]
        intro x hx
        have hxw : x ∈ ws := (ciSort_perm ws).mem_iff.mp (hcs ▸ hx)
        simpa using habs x hxw
      simp [hfind]

/-- C10 as amended: the unhandled read of queue_position happens exactly when
no earlier iteration of this call assigned it (the Python local is still
unbound, modelled by none); then a non-empty live scan without the caller's id
raises UnboundLocalError, which the except ClientError handler does not catch,
and the process terminates abnormally. With a previously assigned position the
loop instead continues waiting on the stale value (see the counterexample). -/
theorem C10_unbound_only_before_assignment (wfId : String) (gh : Option String)
    (st : Int) (env : PollEnv) (tbl : List Item) (rest : List PollEnv)
    (hel : env.wallClock - st < MAX_QUEUE_DUR_SECONDS)
    (hscan : env.scanResult = ScanResult.ok tbl)
    (hne : scanLive tbl env.scanTime ≠ [])
    (habs : ∀ r ∈ scanLive tbl env.scanTime, r.workflow_run_id ≠ wfId) :
    pollStep wfId gh st none env = StepOut.unboundLocal ∧
    (pollLoop wfId gh st none (env :: rest)).1 = RunOutcome.unhandledError := by
  have hstep : pollStep wfId gh st none env = StepOut.unboundLocal := by
    rw [pollStep_reduces wfId gh st none env tbl hel hscan]
    exact pollStepScanned_absent_unbound hne habs
  exact ⟨hstep, by simp [pollLoop, hstep]⟩

/-- C10 witness: on the first iteration (queue_position never assigned), a
live list without the caller's id crashes the process. -/
theorem C10_unbound_only_before_assignment_witness :
    pollStep "A" none 0 none envC10 = StepOut.unboundLocal :=
  (C10_unbound_only_before_assignment "A" none 0 envC10 [⟨"B", "t1", 10⟩] []
    (by decide) rfl (by decide) (by decide)).1

/-! ### Claim C8 -/

/-- C8 counterexample: two live records with the same enqueued_at string, in
the two possible scan orders. The sort key is only the enqueued_at string and
the sort is stable, so each scan order survives sorting: the two queue orders
differ, and no lexicographic tie-break takes place. -/
theorem C8_counterexample :
    List.Perm [itemA, itemB] [itemB, itemA] ∧
    itemA.enqueued_at = itemB.enqueued_at ∧
    ciSort [itemA, itemB] = [itemA, itemB] ∧
    ciSort [itemB, itemA] = [itemB, itemA] ∧
    ciSort [itemA, itemB] ≠ ciSort [itemB, itemA] := by decide

/-- Two lists sorted by enqueued_at that are permutations of each other and
have pairwise-distinct keys are equal. -/
lemma sorted_perm_nodup_eq {s1 : List Item} :
    ∀ {s2 : List Item}, s1.Perm s2 →
      s1.Pairwise (fun x y => enqLE x y = true) →
      s2.Pairwise (fun x y => enqLE x y = true) →
      (s1.map Item.enqueued_at).Nodup → s1 = s2 := by
  induction s1 with
  | nil =>
      intro s2 hp _ _ _
      exact hp.nil_eq
  | cons a t1 ih =>
    intro s2 hp hs1 hs2 hnd
    cases s2 with
    | nil => exact absurd hp.symm.nil_eq (by simp)
    | cons b t2 =>
      have hbmem : b ∈ a :: t1 := hp.mem_iff.mpr (List.mem_cons_self b t2)
      have hamem : a ∈ b :: t2 := hp.mem_iff.mp (List.mem_cons_self a t1)
      have h1 : a.enqueued_at.data ≤ b.enqueued_at.data := by
        rcases List.mem_cons.mp hbmem with h | h
        · rw [h]
        · have := List.rel_of_pairwise_cons hs1 h
          simpa [enqLE, decide_eq_true_eq] using this
      have h2 : b.enqueued_at.data ≤ a.enqueued_at.data := by
        rcases List.mem_cons.mp hamem with h | h
        · rw [h]
        · have := List.rel_of_pairwise_cons hs2 h
          simpa [enqLE, decide_eq_true_eq] using this
      have hab : a = b :=
        eq_of_key_eq hnd (List.mem_cons_self a t1) hbmem
          (str_eq_of_data_eq (le_antisymm h1 h2))
      subst hab
      have htl : t1.Perm t2 := hp.cons_inv
      have het : t1 = t2 :=
        ih htl (List.pairwise_cons.mp hs1).2 (List.pairwise_cons.mp hs2).2
          (List.nodup_cons.mp (by simpa using hnd)).2
      rw [het]

/-- C8 as amended: the queue order is deterministic in the set of live records
whenever the enqueued_at values are pairwise distinct - any two scan orders of
the same records sort to the same list. When two records collide on
enqueued_at, the sort is stable in the scan order and no further tie-break is
applied, so distinct scan orders can yield distinct queue orders (see the
counterexample). -/
theorem C8_deterministic_when_distinct (l1 l2 : List Item)
    (hperm : l1.Perm l2)
    (hnd : (l1.map Item.enqueued_at).Nodup) :
    ciSort l1 = ciSort l2 := by
  apply sorted_perm_nodup_eq
  · exact (ciSort_perm l1).trans (hperm.trans (ciSort_perm l2).symm)
  · exact ciSort_sorted l1
  · exact ciSort_sorted l2
  · have hpm : ((ciSort l1).map Item.enqueued_at).Perm (l1.map Item.enqueued_at) :=
      (ciSort_perm l1).map _
    exact hpm.nodup_iff.mpr hnd

/-- C8 witness: with distinct keys the two scan orders agree after sorting. -/
theorem C8_deterministic_when_distinct_witness :
    ciSort [itemA, itemC] = ciSort [itemC, itemA] :=
  C8_deterministic_when_distinct [itemA, itemC] [itemC, itemA]
    (by decide) (by decide)

/-! ### Claim C1 -/

/-- Whether a poll iteration calls start_running is decided exactly by the
head of the sorted live list carrying the caller's id (line 179). -/
lemma pollStepScanned_attempt_head (wfId : String) (qp : Option Nat) (ok : Bool)
    {ws : List Item} {a : Item} {t : List Item} (hcs : ciSort ws = a :: t)
    (hne : ws ≠ []) :
    promotionAttempted (pollStepScanned wfId qp ok ws) = (a.workflow_run_id == wfId) := by
  simp only [pollStepScanned]
  rw [if_neg (by simpa [List.isEmpty_iff] using hne), hcs]
  by_cases hid : a.workflow_run_id = wfId
  · have hfind : (a :: t).findIdx? (fun it => it.workflow_run_id == wfId) = some 0 := by
      simp [List.findIdx?_cons, hid]
    cases ok <;> simp [hfind, hid, promotionAttempted]
  · have hbeq : (a.workflow_run_id == wfId) = false := by simpa using hid
    cases hfe : t.findIdx? (fun it => it.workflow_run_id == wfId) with
    | some i =>
        simp [List.findIdx?_cons, hbeq, hfe, promotionAttempted]
    | none =>
        cases qp with
        | none => simp [List.findIdx?_cons, hbeq, hfe, promotionAttempted]
        | some q => simp [List.findIdx?_cons, hbeq, hfe, promotionAttempted]

/-- The head of the sorted live list carries the caller's id exactly when the
caller owns the record with the (under distinct keys, unique) smallest
enqueued_at among the live records. -/
lemma head_front_iff {ws : List Item} {a : Item} {t : List Item}
    (hcs : ciSort ws = a :: t)
    (hnd : (ws.map Item.enqueued_at).Nodup) (wfId : String) :
    ((a.workflow_run_id == wfId) = true ↔
      ∃ r ∈ ws, r.workflow_run_id = wfId ∧
        ∀ q ∈ ws, r.enqueued_at.data ≤ q.enqueued_at.data) := by
  constructor
  · intro hbeq
    exact ⟨a, ciSort_head_mem hcs, by simpa using hbeq, ciSort_head_min hcs⟩
  · rintro ⟨r, hr, hid, hmin⟩
    have hamem : a ∈ ws := ciSort_head_mem hcs
    have h1 : a.enqueued_at.data ≤ r.enqueued_at.data := ciSort_head_min hcs r hr
    have h2 : r.enqueued_at.data ≤ a.enqueued_at.data := hmin a hamem
    have hra : r = a :=
      eq_of_key_eq hnd hr hamem (str_eq_of_data_eq (le_antisymm h2 h1))
    subst hra
    simpa using hid

/-- C1: off the timeout path, with a successful scan, a non-empty live list
and pairwise-distinct enqueued_at keys, promotion is attempted in a poll
iteration exactly when the caller owns the live record with the
lexicographically smallest enqueued_at; and whenever the attempted
start_running update succeeds, the iteration returns control to the caller
(StepOut.promoted), so the front entrant is the one that promotes. -/
theorem C1_front_promotes (wfId : String) (gh : Option String) (st : Int)
    (qp : Option Nat) (env : PollEnv) (tbl : List Item)
    (hel : env.wallClock - st < MAX_QUEUE_DUR_SECONDS)
    (hscan : env.scanResult = ScanResult.ok tbl)
    (hne : scanLive tbl env.scanTime ≠ [])
    (hnd : ((scanLive tbl env.scanTime).map Item.enqueued_at).Nodup) :
    (promotionAttempted (pollStep wfId gh st qp env) = true ↔
      ∃ r ∈ scanLive tbl env.scanTime, r.workflow_run_id = wfId ∧
        ∀ q ∈ scanLive tbl env.scanTime, r.enqueued_at.data ≤ q.enqueued_at.data) ∧
    (env.promoteUpdateOk = true →
      promotionAttempted (pollStep wfId gh st qp env) = true →
      ∃ p, pollStep wfId gh st qp env = StepOut.promoted p) := by
  have hred := pollStep_reduces wfId gh st qp env tbl hel hscan
  cases hcs : ciSort (scanLive tbl env.scanTime) with
  | nil => exact absurd hcs (ciSort_ne_nil hne)
  | cons a t =>
    constructor
    · rw [hred, pollStepScanned_attempt_head wfId qp env.promoteUpdateOk hcs hne]
      exact head_front_iff hcs hnd wfId
    · intro hok hatt
      rw [hred] at hatt ⊢
      cases hE : pollStepScanned wfId qp env.promoteUpdateOk (scanLive tbl env.scanTime) with
      | promoted p => exact ⟨p, rfl⟩
      | continueLoop p f s =>
          rw [hE] at hatt
          simp only [promotionAttempted] at hatt
          subst hatt
          have hko := pollStepScanned_failed_not_ok hE
          rw [hok] at hko
          exact absurd hko (by simp)
      | exitTimeout x y =>
          rw [hE] at hatt
          simp [promotionAttempted] at hatt
      | exitEmptyQueue =>
          rw [hE] at hatt
          simp [promotionAttempted] at hatt
      | unboundLocal =>
          rw [hE] at hatt
          simp [promotionAttempted] at hatt

/-- Environment whose live records put the caller "A" at the front. -/
def envFront : PollEnv :=
  ⟨0, 0, ScanResult.ok [⟨"A", "t1", 10⟩, ⟨"B", "t2", 10⟩], true, true, true⟩

/-- C1 witness: the front entrant attempts promotion and, the update
succeeding, the iteration returns control to the caller. -/
theorem C1_front_promotes_witness :
    ∃ p, pollStep "A" none 0 none envFront = StepOut.promoted p := by
  have h := C1_front_promotes "A" none 0 none envFront
    [⟨"A", "t1", 10⟩, ⟨"B", "t2", 10⟩] (by decide) rfl (by decide) (by decide)
  exact h.2 rfl (h.1.mpr ⟨⟨"A", "t1", 10⟩, by decide, by decide, by decide⟩)

/-! ### Claim C4 -/

lemma pollStepScanned_ne_timeout {wfId : String} {qp : Option Nat} {ok : Bool}
    {ws : List Item} {req ret : Bool} :
    pollStepScanned wfId qp ok ws ≠ StepOut.exitTimeout req ret := by
  intro h
  simp only [pollStepScanned] at h
  split at h
  · exact absurd h (by simp)
  · split at h
    · exact absurd h (by simp)
    · split at h
      · exact absurd h (by simp)
      · split at h
        · split at h
          · exact absurd h (by simp)
          · exact absurd h (by simp)
        · exact absurd h (by simp)

/-- An iteration that times out without a truthy github_repo issues no rerun
request (lines 131 and 137-138 skip restart_workflow). -/
lemma pollStep_timeout_norepo {wfId : String} {gh : Option String} {st : Int}
    {qp : Option Nat} {env : PollEnv} {req ret : Bool}
    (h : pollStep wfId gh st qp env = StepOut.exitTimeout req ret)
    (hgh : pyTruthy gh = false) : req = false := by
  simp only [pollStep, hgh] at h
  split at h
  · simp only [Bool.false_eq_true, if_false] at h
    injection h with h1 h2
    exact h1.symm
  · split at h
    · exact absurd h (by simp)
    · exact absurd h pollStepScanned_ne_timeout

/-- Over any trace, at most one rerun request is ever issued, and none at all
when no restart target is configured. -/
lemma pollLoop_rerun_bound (wfId : String) (gh : Option String) (st : Int) :
    ∀ (trace : List PollEnv) (qp : Option Nat),
      (pollLoop wfId gh st qp trace).2.rerunRequests ≤ 1 ∧
      (pyTruthy gh = false → (pollLoop wfId gh st qp trace).2.rerunRequests = 0) := by
  intro trace
  induction trace with
  | nil =>
      intro qp
      simp [pollLoop]
  | cons env rest ih =>
    intro qp
    simp only [pollLoop]
    cases hE : pollStep wfId gh st qp env with
    | exitTimeout req ret =>
        constructor
        · cases req <;> simp
        · intro hgh
          have hreq := pollStep_timeout_norepo hE hgh
          subst hreq
          simp
    | exitEmptyQueue => constructor <;> simp
    | promoted p => constructor <;> simp
    | unboundLocal => constructor <;> simp
    | continueLoop p f s =>
        constructor
        · simpa using (ih p).1
        · intro hgh
          simpa using (ih p).2 hgh

/-- C4: in any iteration whose elapsed time meets or exceeds the 5h30m wait
ceiling the whole run ends at once in a failure exit (no further sleeps,
whatever the rest of the trace and whatever the restart outcome); over any
execution at most one rerun request is issued, none at all when no GitHub
repository is configured. -/
theorem C4_wait_ceiling_exits (wfId : String) (gh : Option String) (st : Int)
    (qp : Option Nat) (env : PollEnv) (rest : List PollEnv)
    (h : MAX_QUEUE_DUR_SECONDS ≤ env.wallClock - st) :
    (pollLoop wfId gh st qp (env :: rest)).1 = RunOutcome.exitFailure ∧
    (pollLoop wfId gh st qp (env :: rest)).2.sleeps = 0 ∧
    (∀ (qp2 : Option Nat) (trace : List PollEnv),
      (pollLoop wfId gh st qp2 trace).2.rerunRequests ≤ 1) ∧
    (pyTruthy gh = false →
      (pollLoop wfId gh st qp (env :: rest)).2.rerunRequests = 0) ∧
    (∀ (tbl : List Item) (now : Int) (enqAt : String) (rf : Bool)
        (trace : List PollEnv),
      (enqueue_and_wait tbl wfId gh now enqAt rf st trace).2.rerunRequests ≤ 1) := by
  have hstep : pollStep wfId gh st qp env =
      StepOut.exitTimeout
        (if pyTruthy gh then restart_workflow gh env.ghCliFound env.rerunApiOk
          else ⟨false, false⟩).requested
        (if pyTruthy gh then restart_workflow gh env.ghCliFound env.rerunApiOk
          else ⟨false, false⟩).returnValue := by
    simp only [pollStep]
    rw [if_pos h]
  refine ⟨?_, ?_, ?_, ?_, ?_⟩
  · simp [pollLoop, hstep]
  · simp [pollLoop, hstep]
  · intro qp2 trace
    exact (pollLoop_rerun_bound wfId gh st trace qp2).1
  · intro hgh
    simp [pollLoop, hstep, hgh]
  · intro tbl now enqAt rf trace
    simp only [enqueue_and_wait]
    cases hreg : registerStep tbl ⟨wfId, enqAt, now + WAITING_TTL_SECONDS⟩ rf with
    | mk t o =>
      cases o with
      | proceed => simpa using (pollLoop_rerun_bound wfId gh st trace none).1
      | exitFailure => simp

/-- Environment whose iteration starts at the wait ceiling. -/
def envTimeout : PollEnv := ⟨19800, 0, ScanResult.ok [], true, true, true⟩

/-- C4 witness: an iteration at the ceiling with no repository configured
exits with failure, sleeps no more, and issues no rerun request. -/
theorem C4_wait_ceiling_exits_witness :
    (pollLoop "A" none 0 none [envTimeout]).1 = RunOutcome.exitFailure ∧
    (pollLoop "A" none 0 none [envTimeout]).2.rerunRequests = 0 :=
  ⟨(C4_wait_ceiling_exits "A" none 0 none envTimeout [] (by decide)).1,
    (C4_wait_ceiling_exits "A" none 0 none envTimeout [] (by decide)).2.2.2.1 rfl⟩

end CiQueue
